import Mathlib

/-!
Verification of the staged plugin-build pipeline (clean, prepare, prettier
check, lint, test, bundle) against its specification.

The filesystem is modelled as a partial map from absolute path strings to
file contents.  External collaborators (prettier, tslint, the test runner,
the bundler, the subprocess runner) are parameters of the embedding: each
is a function or an abstract outcome supplied to the embedded stage.  The
spinner wrapper around every stage only adds reporting and re-raises the
wrapped error unchanged, so the stage bodies are embedded directly.
-/

/-- A filesystem: a partial map from absolute paths to file contents. -/
def FS : Type := String → Option String

/-- Writing one file (creates or overwrites). -/
def fsWrite (fs : FS) (p c : String) : FS :=
  fun q => if q = p then some c else fs q

/-- The path resolution used by the task file: join a directory and a
file name.  `resolvePath cwd "tsconfig.json"` stands for
`resolve(process.cwd(), "tsconfig.json")`, and the bundled-template dir
parameter stands for the resolved `__dirname/../../config`. -/
def resolvePath (dir file : String) : String := dir ++ "/" ++ file

/-- Errors of the modelled `copyFile(src, dst, COPYFILE_EXCL)` call. -/
inductive CopyErr where
  | eexist
  | enoent (path : String)
deriving DecidableEq, Repr

/-- `fs.copyFile(src, dst, COPYFILE_EXCL)`: with the exclusive flag the
call fails with `EEXIST` when the destination already exists; it fails
with `ENOENT` when the source is missing; otherwise it copies the source
contents to the destination. -/
def copyFile (fs : FS) (src dst : String) : Except CopyErr FS :=
  match fs dst with
  | some _ => .error .eexist
  | none =>
    match fs src with
    | none => .error (.enoent src)
    | some c => .ok (fsWrite fs dst c)

/-- Source lines 31-38: `copyIfNonExistent(srcPath, destPath)` performs an
exclusive copy and swallows exactly the `EEXIST` error (the catch rethrows
every error whose code is not EEXIST), leaving the filesystem unchanged in
that case. -/
def copyIfNonExistent (fs : FS) (srcPath destPath : String) : Except CopyErr FS :=
  match copyFile fs srcPath destPath with
  | .ok fs2 => .ok fs2
  | .error .eexist => .ok fs
  | .error e => .error e

/-- Source lines 40-55: `prepare` runs two `copyIfNonExistent` calls under
`Promise.all`, with the arguments exactly as written in the source: the
first argument (the copy SOURCE) is the project-root file and the second
argument (the copy DESTINATION) is the bundled template path.  The two
calls touch distinct files, so the concurrent `Promise.all` is linearised
here as sequential threading of the filesystem. -/
def prepare (cwd configDir : String) (fs : FS) : Except CopyErr FS :=
  (copyIfNonExistent fs (resolvePath cwd "tsconfig.json")
      (resolvePath configDir "tsconfig.plugin.local.json")).bind
    (fun fs1 =>
      copyIfNonExistent fs1 (resolvePath cwd ".prettierrc.js")
        (resolvePath configDir "prettier.plugin.rc.js"))

/-- A project whose bundled template directory holds both shipped template
files, while the project root holds nothing. -/
def demoConfigFS : FS := fun p =>
  if p = "/toolkit/config/tsconfig.plugin.local.json" then some "TEMPLATE_TSCONFIG"
  else if p = "/toolkit/config/prettier.plugin.rc.js" then some "TEMPLATE_PRETTIERRC"
  else none

/-- Claim C9: the ensure-file operation is idempotent: running it a second
time changes nothing (as a bind equation), and in particular a second call
after a successful first call is a silent no-op that never overwrites the
destination produced by the first call. -/
theorem copyIfNonExistent_idempotent (fs : FS) (src dst : String) :
    (copyIfNonExistent fs src dst).bind (fun fs1 => copyIfNonExistent fs1 src dst) =
      copyIfNonExistent fs src dst ∧
    (∀ fs1, copyIfNonExistent fs src dst = .ok fs1 →
      copyIfNonExistent fs1 src dst = .ok fs1) := by
  constructor
  · unfold copyIfNonExistent copyFile
    cases hd : fs dst with
    | some c => simp [Except.bind, hd]
    | none =>
      cases hs : fs src with
      | none => simp [Except.bind]
      | some c => simp [Except.bind, fsWrite]
  · intro fs1 h1
    unfold copyIfNonExistent copyFile at h1 ⊢
    cases hd : fs dst with
    | some c =>
      simp [hd] at h1
      subst h1
      simp [hd]
    | none =>
      cases hs : fs src with
      | none => simp [hd, hs] at h1
      | some c =>
        simp [hd, hs] at h1
        subst h1
        simp [fsWrite]

/-- Witness for C9 at a concrete state: with the destination present, two
consecutive calls equal one call. -/
theorem copyIfNonExistent_idempotent_witness :
    copyIfNonExistent demoConfigFS "/proj/tsconfig.json"
        "/toolkit/config/tsconfig.plugin.local.json" = .ok demoConfigFS ∧
    copyIfNonExistent demoConfigFS "/proj/tsconfig.json"
        "/toolkit/config/tsconfig.plugin.local.json" = .ok demoConfigFS := by
  have h := (copyIfNonExistent_idempotent demoConfigFS "/proj/tsconfig.json"
      "/toolkit/config/tsconfig.plugin.local.json").2 demoConfigFS (by rfl)
  exact ⟨by rfl, h⟩

/-- Claim C8: the ensure operation is total over its error cases: an
existing destination resolves as a silent no-op, a missing source (the
other I/O error in this model) is re-raised, the non-error case copies;
and the prepare stage succeeds only if both ensure operations succeed or
no-op. -/
theorem copyIfNonExistent_error_cases (cwd configDir : String) (fs : FS)
    (src dst : String) :
    (∀ c0, fs dst = some c0 → copyIfNonExistent fs src dst = .ok fs) ∧
    (fs dst = none → fs src = none →
      copyIfNonExistent fs src dst = .error (.enoent src)) ∧
    (∀ c, fs dst = none → fs src = some c →
      copyIfNonExistent fs src dst = .ok (fsWrite fs dst c)) ∧
    (∀ fs2, prepare cwd configDir fs = .ok fs2 →
      ∃ fs1,
        copyIfNonExistent fs (resolvePath cwd "tsconfig.json")
            (resolvePath configDir "tsconfig.plugin.local.json") = .ok fs1 ∧
        copyIfNonExistent fs1 (resolvePath cwd ".prettierrc.js")
            (resolvePath configDir "prettier.plugin.rc.js") = .ok fs2) := by
    refine ⟨?_, ?_, ?_, ?_⟩
    · intro c0 hd
      unfold copyIfNonExistent copyFile
      simp [hd]
    · intro hd hs
      unfold copyIfNonExistent copyFile
      simp [hd, hs]
    · intro c hd hs
      unfold copyIfNonExistent copyFile
      simp [hd, hs]
    · intro fs2 h
      unfold prepare at h
      cases h1 : copyIfNonExistent fs (resolvePath cwd "tsconfig.json")
          (resolvePath configDir "tsconfig.plugin.local.json") with
      | error e => rw [h1] at h; simp [Except.bind] at h
      | ok fs1 =>
        rw [h1] at h
        simp [Except.bind] at h
        exact ⟨fs1, rfl, h⟩

/-- Witness for C8 at a concrete state: the destination (the bundled
template path, per the source-level argument order) exists, so the ensure
call no-ops and prepare succeeds with both calls succeeding. -/
theorem copyIfNonExistent_error_cases_witness :
    copyIfNonExistent demoConfigFS "/proj/tsconfig.json"
        "/toolkit/config/tsconfig.plugin.local.json" = .ok demoConfigFS ∧
    copyIfNonExistent demoConfigFS "/missing/src" "/missing/dst" =
      .error (.enoent "/missing/src") ∧
    ∃ fs1,
      copyIfNonExistent demoConfigFS (resolvePath "/proj" "tsconfig.json")
          (resolvePath "/toolkit/config" "tsconfig.plugin.local.json") = .ok fs1 ∧
      copyIfNonExistent fs1 (resolvePath "/proj" ".prettierrc.js")
          (resolvePath "/toolkit/config" "prettier.plugin.rc.js") = .ok demoConfigFS := by
  refine ⟨?_, ?_, ?_⟩
  · exact (copyIfNonExistent_error_cases "/proj" "/toolkit/config" demoConfigFS
      "/proj/tsconfig.json" "/toolkit/config/tsconfig.plugin.local.json").1
      "TEMPLATE_TSCONFIG" (by rfl)
  · exact (copyIfNonExistent_error_cases "/proj" "/toolkit/config" demoConfigFS
      "/missing/src" "/missing/dst").2.1 (by rfl) (by rfl)
  · exact (copyIfNonExistent_error_cases "/proj" "/toolkit/config" demoConfigFS
      "x" "y").2.2.2 demoConfigFS (by rfl)

/-- Claim C3 (code bug): because the source and destination arguments are
swapped at the call sites in `prepare` (the project-root file is the copy
SOURCE and the bundled template is the copy DESTINATION), whenever the two
bundled template files exist — as they always do in an installed package —
`prepare` is a complete no-op: it never creates anything at the project
root, contradicting the claimed seeding of missing project-root files. -/
theorem prepare_noop_when_templates_exist (cwd configDir : String) (fs : FS)
    (h1 : (fs (resolvePath configDir "tsconfig.plugin.local.json")).isSome)
    (h2 : (fs (resolvePath configDir "prettier.plugin.rc.js")).isSome) :
    prepare cwd configDir fs = .ok fs := by
  unfold prepare copyIfNonExistent copyFile
  obtain ⟨c1, hc1⟩ := Option.isSome_iff_exists.mp h1
  obtain ⟨c2, hc2⟩ := Option.isSome_iff_exists.mp h2
  simp [hc1, hc2, Except.bind]

/-- Witness for C3: a concrete project with no `tsconfig.json` at the
project root and both bundled templates present.  `prepare` returns the
filesystem unchanged, and in particular the project-root `tsconfig.json`
is still missing afterwards. -/
theorem prepare_noop_when_templates_exist_witness :
    prepare "/proj" "/toolkit/config" demoConfigFS = .ok demoConfigFS ∧
    demoConfigFS (resolvePath "/proj" "tsconfig.json") = none := by
  constructor
  · exact prepare_noop_when_templates_exist "/proj" "/toolkit/config" demoConfigFS
      (by rfl) (by rfl)
  · rfl

/-- The external prettier collaborator: given file contents and the file
path (the effective configuration is the base config merged with the
filepath, so per-file rules may apply), decide conformance and produce a
reformatted string. -/
structure PrettierEnv where
  check : String → String → Bool
  format : String → String → String

/-- The per-file console messages the format stage can emit. -/
inductive FileLog where
  | fixed (path : String)
  | noAutomaticFix (path : String)
deriving DecidableEq, Repr

/-- The observable per-file outcome of the format stage: the recorded
success flag, the content written to the file (if any), and the per-file
message (if any). -/
structure FileStepResult where
  success : Bool
  write : Option String
  log : Option FileLog
deriving DecidableEq, Repr

/-- Source lines 83-86 (the first `then` of the per-file chain): when fix
is requested and the content fails the prettier check, the reformatted
content is produced; otherwise the step yields nothing. -/
def fileNewContents (fix : Bool) (env : PrettierEnv) (path contents : String) :
    Option String :=
  if fix && !(env.check contents path) then some (env.format contents path) else none

/-- Source lines 87-105 (the second `then` of the per-file chain): when
fix is set, new content exists (a nonempty string, by js truthiness) and
its length exceeds 10, the file is written and success is recorded;
otherwise, when fix is set, failure is recorded with the no-automatic-fix
message; otherwise (fix not set) plain failure is recorded.  The write is
modelled as succeeding. -/
def fileStep (fix : Bool) (env : PrettierEnv) (path contents : String) :
    FileStepResult :=
  match fileNewContents fix env path contents with
  | some s =>
    if fix && (!(s == "") && decide (10 < s.length)) then
      ⟨true, some s, some (.fixed path)⟩
    else if fix then ⟨false, none, some (.noAutomaticFix path)⟩
    else ⟨false, none, none⟩
  | none =>
    if fix then ⟨false, none, some (.noAutomaticFix path)⟩
    else ⟨false, none, none⟩

/-- Source lines 75-106: every discovered path is read and processed; a
missing file makes the read reject and hence the whole `Promise.all`
reject (`none`).  Each file is read from the initial filesystem (all reads
are dispatched before any write lands, and each file only ever writes to
its own path). -/
def prettierRun (fix : Bool) (env : PrettierEnv) (fs : FS) :
    List String → Option (List (String × FileStepResult))
  | [] => some []
  | p :: rest =>
    match fs p with
    | none => none
    | some c =>
      match prettierRun fix env fs rest with
      | none => none
      | some rs => some ((p, fileStep fix env p c) :: rs)

/-- The writes performed by the stage, in file order. -/
def prettierWrites (results : List (String × FileStepResult)) :
    List (String × String) :=
  results.filterMap (fun pr => pr.2.write.map (fun c => (pr.1, c)))

/-- Applying a list of writes to the filesystem. -/
def applyWrites (fs : FS) (ws : List (String × String)) : FS :=
  ws.foldl (fun acc pc => fsWrite acc pc.1 pc.2) fs

/-- The filesystem after the format stage (unchanged when the stage
rejected on a read). -/
def prettierFinalFS (fix : Bool) (env : PrettierEnv) (fs : FS)
    (paths : List String) : FS :=
  match prettierRun fix env fs paths with
  | none => fs
  | some rs => applyWrites fs (prettierWrites rs)

/-- Source line 108: the per-file results whose success flag is false. -/
def prettierFailures (results : List (String × FileStepResult)) :
    List (String × FileStepResult) :=
  results.filter (fun pr => !pr.2.success)

/-- The stage-level error: a rejected read, or the thrown
`Prettier failed` error together with the printed list of failing paths. -/
inductive PrettierErr where
  | readError
  | prettierFailed (failingPaths : List String)
deriving DecidableEq, Repr

/-- Source lines 66-116 (`prettierCheckPlugin`, spinner body): run the
per-file checks over all discovered paths, collect the failures, and throw
iff the failure list is nonempty, printing the failing paths. -/
def prettierCheckPlugin (fix : Bool) (env : PrettierEnv) (fs : FS)
    (paths : List String) : Except PrettierErr Unit :=
  match prettierRun fix env fs paths with
  | none => .error .readError
  | some rs =>
    if (prettierFailures rs).isEmpty then .ok ()
    else .error (.prettierFailed ((prettierFailures rs).map (fun pr => pr.1)))

/-- When every discovered file exists, the run is total and per-file. -/
theorem prettierRun_total (fix : Bool) (env : PrettierEnv) (fs : FS)
    (paths : List String) (hex : ∀ p ∈ paths, (fs p).isSome) :
    prettierRun fix env fs paths =
      some (paths.map (fun p => (p, fileStep fix env p ((fs p).getD "")))) := by
  induction paths with
  | nil => rfl
  | cons p rest ih =>
    have hp : (fs p).isSome := hex p (by simp)
    obtain ⟨c, hc⟩ := Option.isSome_iff_exists.mp hp
    have hrest := ih (fun q hq => hex q (by simp [hq]))
    simp [prettierRun, hc, hrest]

/-- Any entry of a successful run records the step on that file's actual
contents, for a path from the input list. -/
theorem prettierRun_mem (fix : Bool) (env : PrettierEnv) (fs : FS)
    (paths : List String) (rs : List (String × FileStepResult))
    (h : prettierRun fix env fs paths = some rs) :
    ∀ pr ∈ rs, pr.1 ∈ paths ∧ ∃ c, fs pr.1 = some c ∧
      pr.2 = fileStep fix env pr.1 c := by
  induction paths generalizing rs with
  | nil =>
    simp [prettierRun] at h
    subst h
    intro pr hpr
    simp at hpr
  | cons p rest ih =>
    unfold prettierRun at h
    cases hc : fs p with
    | none => rw [hc] at h; simp at h
    | some c =>
      rw [hc] at h
      cases hr : prettierRun fix env fs rest with
      | none => rw [hr] at h; simp at h
      | some rs0 =>
        rw [hr] at h
        simp at h
        subst h
        intro pr hpr
        rcases List.mem_cons.mp hpr with h1 | h1
        · subst h1
          exact ⟨by simp, c, hc, rfl⟩
        · obtain ⟨hmem, c2, hc2, hstep⟩ := ih rs0 hr pr h1
          exact ⟨by simp [hmem], c2, hc2, hstep⟩

/-- With fix unset the per-file step records plain failure and writes
nothing. -/
theorem fileStep_nofix (env : PrettierEnv) (path contents : String) :
    fileStep false env path contents = ⟨false, none, none⟩ := by
  simp [fileStep, fileNewContents]

/-- A write produced by the per-file step pins down everything about it:
fix was set, the file did not conform, the written content is the
formatter's output on the file's contents, and its length exceeds 10. -/
theorem fileStep_write_eq (fix : Bool) (env : PrettierEnv)
    (path contents s : String)
    (h : (fileStep fix env path contents).write = some s) :
    fix = true ∧ env.check contents path = false ∧
      s = env.format contents path ∧ 10 < s.length ∧
      (fileStep fix env path contents).success = true := by
  cases fix with
  | false =>
    rw [fileStep_nofix] at h
    exact absurd h (by simp)
  | true =>
    cases hcc : env.check contents path with
    | true =>
      have hn : fileNewContents true env path contents = none := by
        simp [fileNewContents, hcc]
      unfold fileStep at h
      rw [hn] at h
      simp at h
    | false =>
      have hn : fileNewContents true env path contents =
          some (env.format contents path) := by
        simp [fileNewContents, hcc]
      unfold fileStep at h ⊢
      rw [hn] at h ⊢
      by_cases hcond : (true && (!(env.format contents path == "") &&
          decide (10 < (env.format contents path).length))) = true
      · have hlen : decide (10 < (env.format contents path).length) = true :=
          (Bool.and_eq_true_iff.mp ((Bool.and_eq_true_iff.mp hcond).2)).2
        simp only [hcond, if_true] at h ⊢
        simp at h ⊢
        subst h
        exact ⟨rfl, of_decide_eq_true hlen⟩
      · simp [hcond] at h

/-- With fix unset no run ever produces a write. -/
theorem prettierWrites_nofix (env : PrettierEnv) (fs : FS) (paths : List String)
    (rs : List (String × FileStepResult))
    (h : prettierRun false env fs paths = some rs) :
    prettierWrites rs = [] := by
  have hmem := prettierRun_mem false env fs paths rs h
  unfold prettierWrites
  rw [List.filterMap_eq_nil_iff]
  intro pr hpr
  obtain ⟨_, c, _, hstep⟩ := hmem pr hpr
  simp [hstep, fileStep_nofix]

/-- A path that no write touches keeps its initial content. -/
theorem applyWrites_not_mem (fs : FS) (ws : List (String × String)) (q : String)
    (h : ∀ pc ∈ ws, pc.1 ≠ q) : applyWrites fs ws q = fs q := by
  induction ws generalizing fs with
  | nil => rfl
  | cons pc rest ih =>
    have h1 : pc.1 ≠ q := h pc (by simp)
    rw [show applyWrites fs (pc :: rest) q =
        applyWrites (fsWrite fs pc.1 pc.2) rest q from rfl]
    rw [ih (fsWrite fs pc.1 pc.2) (fun x hx => h x (List.mem_cons_of_mem _ hx))]
    simp [fsWrite, Ne.symm h1]

/-- A path written with a single content (possibly several times) ends at
that content. -/
theorem applyWrites_mem_unique (fs : FS) (ws : List (String × String))
    (p c : String) (hmem : (p, c) ∈ ws)
    (huniq : ∀ c2, (p, c2) ∈ ws → c2 = c) :
    applyWrites fs ws p = some c := by
  induction ws generalizing fs with
  | nil => simp at hmem
  | cons pc rest ih =>
    by_cases hrest : ∃ c2, (p, c2) ∈ rest
    · obtain ⟨c2, hc2⟩ := hrest
      have hc2eq : c2 = c := huniq c2 (List.mem_cons_of_mem _ hc2)
      subst hc2eq
      exact ih (fsWrite fs pc.1 pc.2) hc2
        (fun c3 h3 => huniq c3 (List.mem_cons_of_mem _ h3))
    · have hpc : (p, c) = pc := by
        rcases List.mem_cons.mp hmem with h1 | h1
        · exact h1
        · exact absurd ⟨c, h1⟩ hrest
      have hnone : ∀ x ∈ rest, x.1 ≠ p := by
        intro x hx hxp
        refine hrest ⟨x.2, ?_⟩
        have hx2 : (x.1, x.2) ∈ rest := by simpa using hx
        rwa [hxp] at hx2
      rw [show applyWrites fs (pc :: rest) p =
          applyWrites (fsWrite fs pc.1 pc.2) rest p from rfl]
      rw [applyWrites_not_mem _ _ _ hnone]
      rw [← hpc]
      simp [fsWrite]

/-- Every write entry of a run is fully determined: fix was set, the entry
carries the file's own path, the file's actual content failed the check,
and the written content is the formatter output with length above 10. -/
theorem prettierWrites_mem (fix : Bool) (env : PrettierEnv) (fs : FS)
    (paths : List String) (rs : List (String × FileStepResult)) (p c : String)
    (h : prettierRun fix env fs paths = some rs)
    (hw : (p, c) ∈ prettierWrites rs) :
    p ∈ paths ∧ fix = true ∧ ∃ orig, fs p = some orig ∧
      env.check orig p = false ∧ c = env.format orig p ∧ 10 < c.length := by
  unfold prettierWrites at hw
  obtain ⟨pr, hpr, hmap⟩ := List.mem_filterMap.mp hw
  cases hwz : pr.2.write with
  | none => rw [hwz] at hmap; simp at hmap
  | some c0 =>
    rw [hwz] at hmap
    simp at hmap
    obtain ⟨hp1, hc0⟩ := hmap
    obtain ⟨hmem, orig, horig, hstep⟩ := prettierRun_mem fix env fs paths rs h pr hpr
    rw [hstep] at hwz
    obtain ⟨hfix, hchk, hceq, hlen, _⟩ := fileStep_write_eq fix env pr.1 orig c0 hwz
    rw [hp1] at hmem horig hchk hceq
    rw [hc0] at hceq hlen
    exact ⟨hmem, hfix, orig, horig, hchk, hceq, hlen⟩

/-- Claim C5: with fix unset the format stage performs no write at all and
the filesystem is unchanged at every path; in general a write happens only
with fix set and only for a file that failed the check and received a
formatter output above the sanity threshold. -/
theorem prettier_nofix_never_writes (env : PrettierEnv) (fs : FS)
    (paths : List String) :
    (∀ rs, prettierRun false env fs paths = some rs → prettierWrites rs = []) ∧
    (∀ q, prettierFinalFS false env fs paths q = fs q) ∧
    (∀ fix rs p c, prettierRun fix env fs paths = some rs →
      (p, c) ∈ prettierWrites rs →
      fix = true ∧ ∃ orig, fs p = some orig ∧ env.check orig p = false ∧
        c = env.format orig p ∧ 10 < c.length) := by
  refine ⟨fun rs h => prettierWrites_nofix env fs paths rs h, ?_, ?_⟩
  · intro q
    unfold prettierFinalFS
    cases hr : prettierRun false env fs paths with
    | none => rfl
    | some rs =>
      show applyWrites fs (prettierWrites rs) q = fs q
      rw [prettierWrites_nofix env fs paths rs hr]
      rfl
  · intro fix rs p c h hw
    obtain ⟨_, hfix, rest⟩ := prettierWrites_mem fix env fs paths rs p c h hw
    exact ⟨hfix, rest⟩

/-- A formatter environment under which every file already conforms. -/
def conformEnv : PrettierEnv := ⟨fun _ _ => true, fun contents _ => contents⟩

/-- A formatter environment that rejects every file and returns a fix
longer than the threshold. -/
def fixEnvLong : PrettierEnv :=
  ⟨fun _ _ => false, fun _ _ => "let alpha = 1; let beta = 2;"⟩

/-- A formatter environment that rejects every file and returns a fix at
most as long as the threshold. -/
def fixEnvShort : PrettierEnv := ⟨fun _ _ => false, fun _ _ => "let a;"⟩

/-- A single-file project. -/
def oneFileFS : FS := fun p => if p = "src/a.ts" then some "let a = 1;\n" else none

/-- Witness for C5 at a concrete state: the single file keeps its content
under a fix-unset run. -/
theorem prettier_nofix_never_writes_witness :
    prettierFinalFS false fixEnvShort oneFileFS ["src/a.ts"] "src/a.ts" =
      oneFileFS "src/a.ts" :=
  (prettier_nofix_never_writes fixEnvShort oneFileFS ["src/a.ts"]).2.1 "src/a.ts"

/-- Claim C2 (code bug): with fix unset the per-file chain never consults
the prettier check — the final else branch records failure for every file
— so a fully conforming single-file project still records a per-file
failure and the stage throws, listing the conforming file, while the claim
says a conforming file records success and only violating files are
listed. -/
theorem prettier_nofix_flags_conforming_file :
    conformEnv.check "let a = 1;\n" "src/a.ts" = true ∧
    prettierRun false conformEnv oneFileFS ["src/a.ts"] =
      some [("src/a.ts", ⟨false, none, none⟩)] ∧
    prettierCheckPlugin false conformEnv oneFileFS ["src/a.ts"] =
      .error (.prettierFailed ["src/a.ts"]) := by
  exact ⟨rfl, rfl, rfl⟩

/-- With fix set, a conforming file yields no reformatted content and is
recorded as a failure with the no-automatic-fix message. -/
theorem fileStep_conforming (env : PrettierEnv) (p c : String)
    (h : env.check c p = true) :
    fileNewContents true env p c = none ∧
    fileStep true env p c = ⟨false, none, some (.noAutomaticFix p)⟩ := by
  have hn : fileNewContents true env p c = none := by
    simp [fileNewContents, h]
  exact ⟨hn, by simp [fileStep, hn]⟩

/-- With fix set, a non-conforming file whose formatter output is longer
than 10 characters is written and recorded as a success. -/
theorem fileStep_bad_long (env : PrettierEnv) (p c : String)
    (hbad : env.check c p = false)
    (hlen : 10 < (env.format c p).length) :
    fileStep true env p c = ⟨true, some (env.format c p), some (.fixed p)⟩ := by
  have hn : fileNewContents true env p c = some (env.format c p) := by
    simp [fileNewContents, hbad]
  have hnem : (env.format c p == "") = false := by
    rw [beq_eq_false_iff_ne]
    intro h0
    rw [h0] at hlen
    simp at hlen
  simp [fileStep, hn, hnem, hlen]

/-- With fix set, a non-conforming file whose formatter output is at most
10 characters long is not written and is recorded as a failure with the
no-automatic-fix message. -/
theorem fileStep_bad_short (env : PrettierEnv) (p c : String)
    (hbad : env.check c p = false)
    (hlen : (env.format c p).length ≤ 10) :
    fileStep true env p c = ⟨false, none, some (.noAutomaticFix p)⟩ := by
  have hn : fileNewContents true env p c = some (env.format c p) := by
    simp [fileNewContents, hbad]
  have hdec : ¬(10 < (env.format c p).length) := Nat.not_lt.mpr hlen
  simp [fileStep, hn, hdec]

/-- Projecting the path component out of per-file result pairs built over
a path list returns the path list. -/
theorem map_pair_fst (g : String → FileStepResult) (l : List String) :
    (l.map fun q => (q, g q)).map (fun pr => pr.1) = l := by
  induction l with
  | nil => rfl
  | cons a t ih => simp [ih]

/-- Claim C10: with fix set, every file of an all-conforming non-empty
project yields no reformatted content and records a per-file failure with
the no-automatic-fix message, and the stage fails listing every file. -/
theorem prettier_fix_conforming_fails (env : PrettierEnv) (fs : FS)
    (paths : List String) (hne : paths ≠ [])
    (hex : ∀ p ∈ paths, (fs p).isSome)
    (hconf : ∀ p c, p ∈ paths → fs p = some c → env.check c p = true) :
    (∀ p c, p ∈ paths → fs p = some c →
      fileNewContents true env p c = none ∧
      fileStep true env p c = ⟨false, none, some (.noAutomaticFix p)⟩) ∧
    prettierCheckPlugin true env fs paths = .error (.prettierFailed paths) := by
  constructor
  · intro p c hp hc
    exact fileStep_conforming env p c (hconf p c hp hc)
  · have hrun := prettierRun_total true env fs paths hex
    have hred : prettierCheckPlugin true env fs paths =
        (if (prettierFailures (paths.map fun p =>
            (p, fileStep true env p ((fs p).getD "")))).isEmpty then Except.ok ()
          else Except.error (.prettierFailed ((prettierFailures (paths.map fun p =>
            (p, fileStep true env p ((fs p).getD "")))).map (fun pr => pr.1)))) := by
      unfold prettierCheckPlugin
      rw [hrun]
    rw [hred]
    have hmap : (paths.map fun p => (p, fileStep true env p ((fs p).getD ""))) =
        paths.map fun p =>
          (p, (⟨false, none, some (.noAutomaticFix p)⟩ : FileStepResult)) := by
      apply List.map_congr_left
      intro p hp
      obtain ⟨c, hc⟩ := Option.isSome_iff_exists.mp (hex p hp)
      rw [hc]
      exact congrArg (fun r => (p, r))
        ((fileStep_conforming env p c (hconf p c hp hc)).2)
    rw [hmap]
    have hfail : prettierFailures (paths.map fun p =>
        (p, (⟨false, none, some (.noAutomaticFix p)⟩ : FileStepResult))) =
        paths.map fun p =>
          (p, (⟨false, none, some (.noAutomaticFix p)⟩ : FileStepResult)) := by
      unfold prettierFailures
      rw [List.filter_eq_self]
      intro a ha
      obtain ⟨p, hp, hpa⟩ := List.mem_map.mp ha
      rw [← hpa]
      rfl
    rw [hfail]
    rw [map_pair_fst
      (fun q => (⟨false, none, some (.noAutomaticFix q)⟩ : FileStepResult)) paths]
    cases paths with
    | nil => exact absurd rfl hne
    | cons p rest => simp

/-- Witness for C10 on a concrete all-conforming single-file project. -/
theorem prettier_fix_conforming_fails_witness :
    prettierCheckPlugin true conformEnv oneFileFS ["src/a.ts"] =
      .error (.prettierFailed ["src/a.ts"]) :=
  (prettier_fix_conforming_fails conformEnv oneFileFS ["src/a.ts"]
    (by simp)
    (by intro p hp; rw [List.mem_singleton] at hp; subst hp; rfl)
    (by intro p c hp hc; rfl)).2

/-- Claim C6: with fix set on a non-conforming discovered file: if the
formatter output length exceeds the threshold 10, the file records a
per-file success and ends overwritten with that output; if the output
length is at most 10, the file records a per-file failure with the
no-automatic-fix message, its on-disk content is unchanged, and the stage
fails with the file among the listed failing paths. -/
theorem prettier_fix_threshold (env : PrettierEnv) (fs : FS)
    (paths : List String) (p c : String) (hp : p ∈ paths) (hc : fs p = some c)
    (hex : ∀ q ∈ paths, (fs q).isSome)
    (hbad : env.check c p = false) :
    (10 < (env.format c p).length →
      fileStep true env p c = ⟨true, some (env.format c p), some (.fixed p)⟩ ∧
      prettierFinalFS true env fs paths p = some (env.format c p)) ∧
    ((env.format c p).length ≤ 10 →
      fileStep true env p c = ⟨false, none, some (.noAutomaticFix p)⟩ ∧
      prettierFinalFS true env fs paths p = fs p ∧
      ∃ l, prettierCheckPlugin true env fs paths = .error (.prettierFailed l) ∧
        p ∈ l) := by
  have hrun := prettierRun_total true env fs paths hex
  have hgetD : (fs p).getD "" = c := by rw [hc]; rfl
  have hmemrs : (p, fileStep true env p c) ∈ (paths.map fun q =>
      (q, fileStep true env q ((fs q).getD ""))) := by
    have h0 : (p, fileStep true env p ((fs p).getD "")) ∈ (paths.map fun q =>
        (q, fileStep true env q ((fs q).getD ""))) :=
      List.mem_map_of_mem _ hp
    rwa [hgetD] at h0
  constructor
  · intro hlen
    have hstep := fileStep_bad_long env p c hbad hlen
    refine ⟨hstep, ?_⟩
    unfold prettierFinalFS
    rw [hrun]
    show applyWrites fs (prettierWrites (paths.map fun q =>
        (q, fileStep true env q ((fs q).getD "")))) p = some (env.format c p)
    apply applyWrites_mem_unique
    · exact List.mem_filterMap.mpr
        ⟨(p, fileStep true env p c), hmemrs, by rw [hstep]; rfl⟩
    · intro c2 h2
      obtain ⟨_, _, orig, horig, _, hceq, _⟩ :=
        prettierWrites_mem true env fs paths _ p c2 hrun h2
      rw [hc] at horig
      injection horig with horig
      rw [hceq, horig]
  · intro hlen
    have hstep := fileStep_bad_short env p c hbad hlen
    refine ⟨hstep, ?_, ?_⟩
    · unfold prettierFinalFS
      rw [hrun]
      show applyWrites fs (prettierWrites (paths.map fun q =>
          (q, fileStep true env q ((fs q).getD "")))) p = fs p
      apply applyWrites_not_mem
      intro pc hpc hpeq
      have hpair : (pc.1, pc.2) ∈ prettierWrites (paths.map fun q =>
          (q, fileStep true env q ((fs q).getD ""))) := by simpa using hpc
      obtain ⟨_, _, orig, horig, _, hceq, hlen2⟩ :=
        prettierWrites_mem true env fs paths _ pc.1 pc.2 hrun hpair
      rw [hpeq] at horig hceq
      rw [hc] at horig
      injection horig with horig
      rw [← horig] at hceq
      rw [hceq] at hlen2
      exact absurd hlen2 (Nat.not_lt.mpr hlen)
    · have hred : prettierCheckPlugin true env fs paths =
          (if (prettierFailures (paths.map fun q =>
              (q, fileStep true env q ((fs q).getD "")))).isEmpty then Except.ok ()
            else Except.error (.prettierFailed ((prettierFailures (paths.map fun q =>
              (q, fileStep true env q ((fs q).getD "")))).map (fun pr => pr.1)))) := by
        unfold prettierCheckPlugin
        rw [hrun]
      have hmemfail : (p, fileStep true env p c) ∈
          prettierFailures (paths.map fun q =>
            (q, fileStep true env q ((fs q).getD ""))) := by
        unfold prettierFailures
        rw [List.mem_filter]
        refine ⟨hmemrs, ?_⟩
        rw [hstep]
        rfl
      have hne2 : (prettierFailures (paths.map fun q =>
          (q, fileStep true env q ((fs q).getD "")))).isEmpty = false := by
        cases hfe : prettierFailures (paths.map fun q =>
            (q, fileStep true env q ((fs q).getD ""))) with
        | nil => rw [hfe] at hmemfail; simp at hmemfail
        | cons a l => rfl
      refine ⟨(prettierFailures (paths.map fun q =>
          (q, fileStep true env q ((fs q).getD "")))).map (fun pr => pr.1), ?_, ?_⟩
      · rw [hred, hne2]
        simp
      · exact List.mem_map.mpr ⟨(p, fileStep true env p c), hmemfail, rfl⟩

/-- Witness for C6 on a concrete single-file project, in both threshold
directions: a 28-character fix overwrites the file, a 6-character fix
leaves it unchanged and fails the stage naming the file. -/
theorem prettier_fix_threshold_witness :
    prettierFinalFS true fixEnvLong oneFileFS ["src/a.ts"] "src/a.ts" =
      some "let alpha = 1; let beta = 2;" ∧
    prettierFinalFS true fixEnvShort oneFileFS ["src/a.ts"] "src/a.ts" =
      oneFileFS "src/a.ts" ∧
    ∃ l, prettierCheckPlugin true fixEnvShort oneFileFS ["src/a.ts"] =
      .error (.prettierFailed l) ∧ "src/a.ts" ∈ l := by
  refine ⟨?_, ?_, ?_⟩
  · exact ((prettier_fix_threshold fixEnvLong oneFileFS ["src/a.ts"] "src/a.ts"
      "let a = 1;\n" (by simp) rfl
      (by intro q hq; rw [List.mem_singleton] at hq; subst hq; rfl) rfl).1
      (by decide)).2
  · exact ((prettier_fix_threshold fixEnvShort oneFileFS ["src/a.ts"] "src/a.ts"
      "let a = 1;\n" (by simp) rfl
      (by intro q hq; rw [List.mem_singleton] at hq; subst hq; rfl) rfl).2
      (by decide)).2.1
  · exact ((prettier_fix_threshold fixEnvShort oneFileFS ["src/a.ts"] "src/a.ts"
      "let a = 1;\n" (by simp) rfl
      (by intro q hq; rw [List.mem_singleton] at hq; subst hq; rfl) rfl).2
      (by decide)).2.2

/-- tslint rule severities as returned by getRuleSeverity. -/
inductive RuleSeverity where
  | warning
  | error
  | off
deriving DecidableEq, Repr

/-- One tslint rule failure: file name, zero-based start position,
severity, and message. -/
structure RuleFailure where
  fileName : String
  line : Nat
  character : Nat
  severity : RuleSeverity
  failure : String
deriving DecidableEq, Repr

/-- The result of linting one file. -/
structure LintResult where
  errorCount : Nat
  warningCount : Nat
  failures : List RuleFailure
deriving DecidableEq, Repr

/-- The external tslint collaborator: configuration loading and the linter
run on one file (configuration, file name, contents). -/
structure LintEnv (Config : Type) where
  findConfiguration : String → Config
  lint : Config → String → String → LintResult

/-- The member names of the fs.promises namespace — node's promise-based
file API, the binding named fs at source line 4.  The synchronous
existsSync and readFileSync belong to the classic fs module and are not
among them. -/
def fsPromisesMembers : List String :=
  ["access", "appendFile", "chmod", "chown", "copyFile", "cp", "lchmod",
   "lchown", "link", "lstat", "lutimes", "mkdir", "mkdtemp", "open",
   "opendir", "readFile", "readdir", "readlink", "realpath", "rename",
   "rm", "rmdir", "stat", "statfs", "symlink", "truncate", "unlink",
   "utimes", "watch", "writeFile", "constants"]

/-- Source lines 120-123, the path choice the stage text spells out:
prefer the project-root tslint.json; when it does not exist, fall back to
the bundled default configuration path.  Dead code in the program: the
existence check itself is the call that throws (see lintPlugin). -/
def tsLintConfigPath (cwd configDir : String) (fs : FS) : String :=
  if (fs (resolvePath cwd "tslint.json")).isSome then resolvePath cwd "tslint.json"
  else resolvePath configDir "tslint.plugin.json"

/-- Source line 129 of the same dead body: the configuration would be
loaded once per invocation, from the single resolved path. -/
def lintConfigOf (Config : Type) (cwd configDir : String) (env : LintEnv Config)
    (fs : FS) : Config :=
  env.findConfiguration (tsLintConfigPath cwd configDir fs)

/-- Source lines 139-141: a file's result is retained when it has a
nonzero error or warning count. -/
def lintHasIssues (r : LintResult) : Bool :=
  decide (0 < r.errorCount) || decide (0 < r.warningCount)

/-- Source lines 132-138 of the dead body: every discovered file would be
read and linted against the one resolved configuration; a missing file
makes the read throw. -/
def lintRun (Config : Type) (env : LintEnv Config) (cfg : Config) (fs : FS) :
    List String → Option (List LintResult)
  | [] => some []
  | f :: rest =>
    match fs f with
    | none => none
    | some contents =>
      match lintRun Config env cfg fs rest with
      | none => none
      | some rs => some (env.lint cfg f contents :: rs)

/-- Source lines 139-141: the filter keeping only files with issues. -/
def lintRetained (rs : List LintResult) : List LintResult :=
  rs.filter lintHasIssues

/-- Char-list test: sep occurs at the head of s. -/
def leadsWith : List Char → List Char → Bool
  | [], _ => true
  | _ :: _, [] => false
  | a :: as, b :: bs => a == b && leadsWith as bs

/-- Fuelled splitter on char lists: split at non-overlapping occurrences
of sep, scanning left to right, as the js string split does for a
non-empty separator.  The fuel argument only makes the recursion
structural; it is always called with more fuel than characters. -/
def splitChars (sep : List Char) : Nat → List Char → List Char → List (List Char)
  | 0, s, acc => [acc.reverse ++ s]
  | fuel + 1, s, acc =>
    match s with
    | [] => [acc.reverse]
    | c :: rest =>
      if leadsWith sep s then
        acc.reverse :: splitChars sep fuel (s.drop sep.length) []
      else splitChars sep fuel rest (c :: acc)

/-- The js string split on a non-empty separator. -/
def stringSplitOn (sep s : String) : List String :=
  (splitChars sep.data (s.data.length + 1) s.data []).map (fun l => String.mk l)

/-- Source line 152: the path is printed relative to the first occurrence
of `src` (js split on the substring, index 1; with no occurrence the
undefined value prints). -/
def relativeToSrc (fileName : String) : String :=
  (stringSplitOn "src" fileName).getD 1 "undefined"

/-- Source lines 150-156: one printed report line: severity word, relative
path, one-based line, zero-based column, message. -/
def formatRuleFailure (f : RuleFailure) : String :=
  (if f.severity = RuleSeverity.warning then "WARNING" else "ERROR") ++ ": " ++
    relativeToSrc f.fileName ++ "[" ++ toString (f.line + 1) ++ ":" ++
    toString f.character ++ "]: " ++ f.failure

/-- Source lines 145-147: the retained files' failures are flattened with
a fold appending each file's failures in order. -/
def concatFailures (retained : List LintResult) : List RuleFailure :=
  retained.foldl (fun acc r => acc ++ r.failures) []

/-- The lint stage error: the TypeError thrown by calling a member the fs
binding does not have, a rejected read, or the thrown error carrying the
total failure count, the retained-file count, and the printed report
lines. -/
inductive LintErr where
  | typeError (message : String)
  | readError
  | lintFailed (count fileCount : Nat) (report : List String)
deriving DecidableEq, Repr

/-- Source lines 120-160 read as the lint-and-aggregate procedure their
text spells out: resolve the configuration once, lint every discovered
file, keep the files with issues, and when any are kept throw an error
carrying the failure count, the retained-file count and the formatted
report.  In the program this body is dead code: it would only run if the
fs binding had an existsSync member (see lintPlugin). -/
def lintStageDeadCode (Config : Type) (cwd configDir : String)
    (env : LintEnv Config) (fs : FS) (sources : List String) :
    Except LintErr Unit :=
  match lintRun Config env (lintConfigOf Config cwd configDir env fs) fs sources with
  | none => .error .readError
  | some results =>
    if 0 < (lintRetained results).length then
      .error (.lintFailed (concatFailures (lintRetained results)).length
        (lintRetained results).length
        ((concatFailures (lintRetained results)).map formatRuleFailure))
    else .ok ()

/-- Source lines 119-161 (`lintPlugin`, spinner body) as the program
executes it: line 4 binds fs to the fs.promises namespace, so the member
lookup fs.existsSync at line 121 yields the js undefined value and calling
it throws a TypeError.  The stage therefore rejects on every invocation,
before Configuration.findConfiguration is reached and before any file is
read or linted.  Two further faults sit behind it: line 132 maps over the
un-awaited globby promise of line 130, which has no map method, and line
135 calls fs.readFileSync, also missing from fs.promises.  The guard below
models the member lookup; the then-branch is the procedure of the dead
body. -/
def lintPlugin (Config : Type) (cwd configDir : String) (env : LintEnv Config)
    (fs : FS) (sources : List String) : Except LintErr Unit :=
  if "existsSync" ∈ fsPromisesMembers then
    lintStageDeadCode Config cwd configDir env fs sources
  else .error (.typeError "fs.existsSync is not a function")

/-- A linter that reports one error per file, at line 0 column 4. -/
def demoLintEnv : LintEnv Unit :=
  ⟨fun _ => (), fun _ f _ =>
    ⟨1, 0, [⟨f, 0, 4, RuleSeverity.error, "missing semicolon"⟩]⟩⟩

/-- A two-file project with no project-root tslint.json. -/
def twoFileFS : FS := fun p =>
  if p = "/proj/src/a.ts" then some "alpha"
  else if p = "/proj/src/b.ts" then some "beta" else none

/-- Claim C4 (code bug): the lint stage rejects with a TypeError on every
invocation — the fs binding is the fs.promises namespace, which has no
existsSync member — so no configuration is ever resolved and no file is
ever linted; the resolve-once-and-lint-all body is dead code. -/
theorem lintPlugin_throws_before_config (Config : Type) (cwd configDir : String)
    (env : LintEnv Config) (fs : FS) (sources : List String) :
    lintPlugin Config cwd configDir env fs sources =
      .error (.typeError "fs.existsSync is not a function") := by
  unfold lintPlugin
  rw [if_neg (by decide)]

/-- Witness for C4 at a concrete project: the stage rejects with the
TypeError and nothing else happens. -/
theorem lintPlugin_throws_before_config_witness :
    lintPlugin Unit "/proj" "/toolkit/config" demoLintEnv twoFileFS
        ["/proj/src/a.ts"] =
      .error (.typeError "fs.existsSync is not a function") :=
  lintPlugin_throws_before_config Unit "/proj" "/toolkit/config" demoLintEnv
    twoFileFS ["/proj/src/a.ts"]

/-- Claim C7 (code bug): on the aggregation scenario's two-file project —
files a.ts then b.ts in discovery order, one lint error each under the
demo linter — the stage rejects with the TypeError before any failure is
collected, flattened, formatted or counted; in particular it does not
raise the aggregate two-failures-in-two-files error the claim
describes. -/
theorem lintPlugin_no_aggregation_two_files :
    lintPlugin Unit "/proj" "/toolkit/config" demoLintEnv twoFileFS
        ["/proj/src/a.ts", "/proj/src/b.ts"] =
      .error (.typeError "fs.existsSync is not a function") ∧
    lintPlugin Unit "/proj" "/toolkit/config" demoLintEnv twoFileFS
        ["/proj/src/a.ts", "/proj/src/b.ts"] ≠
      .error (.lintFailed 2 2
        ["ERROR: /a.ts[1:4]: missing semicolon",
         "ERROR: /b.ts[1:4]: missing semicolon"]) := by
  have h1 : lintPlugin Unit "/proj" "/toolkit/config" demoLintEnv twoFileFS
      ["/proj/src/a.ts", "/proj/src/b.ts"] =
      .error (.typeError "fs.existsSync is not a function") := by
    unfold lintPlugin
    rw [if_neg (by decide)]
  refine ⟨h1, ?_⟩
  rw [h1]
  simp

/-- The options the runner passes to the test stage. -/
structure TestPluginOptions where
  updateSnapshot : Bool
  coverage : Bool
  watch : Bool
deriving DecidableEq, Repr

/-- The options the runner passes to the bundle stage. -/
structure PluginBundleOptions where
  watch : Bool
  production : Bool
deriving DecidableEq, Repr

/-- The six stages of the pipeline, as abstract awaited outcomes (each one
already wrapped by the spinner, which re-raises the stage error
unchanged).  The flagged stages are functions of the options the runner
passes them. -/
structure PipelineStages (E : Type) where
  clean : Except E Unit
  prepare : Except E Unit
  prettierCheck : Bool → Except E Unit
  lint : Bool → Except E Unit
  test : TestPluginOptions → Except E Unit
  bundle : PluginBundleOptions → Except E Unit

/-- Source lines 163-170 (`pluginBuildRunner`): await the six stages in
order; each await propagates a rejection immediately, so a later stage
runs only when every earlier one resolved. -/
def pluginBuildRunner {E : Type} (s : PipelineStages E) (coverage : Bool) :
    Except E Unit :=
  (s.clean).bind fun _ =>
    (s.prepare).bind fun _ =>
      (s.prettierCheck false).bind fun _ =>
        (s.lint false).bind fun _ =>
          (s.test ⟨false, coverage, false⟩).bind fun _ =>
            s.bundle ⟨false, true⟩

/-- An observed stage invocation, carrying the options it received. -/
inductive StageCall where
  | clean
  | prepare
  | prettierCheck (fix : Bool)
  | lint (fix : Bool)
  | test (opts : TestPluginOptions)
  | bundle (opts : PluginBundleOptions)
deriving DecidableEq, Repr

/-- The six stage calls of a run, in source order, paired with their
outcomes. -/
def stageCalls {E : Type} (s : PipelineStages E) (coverage : Bool) :
    List (StageCall × Except E Unit) :=
  [(.clean, s.clean), (.prepare, s.prepare),
   (.prettierCheck false, s.prettierCheck false),
   (.lint false, s.lint false),
   (.test ⟨false, coverage, false⟩, s.test ⟨false, coverage, false⟩),
   (.bundle ⟨false, true⟩, s.bundle ⟨false, true⟩)]

/-- Run a list of stages fail-fast, recording which stages were invoked:
on the first error the remaining stages are not invoked and the error is
returned unmodified. -/
def runStages {E : Type} : List (StageCall × Except E Unit) →
    List StageCall × Except E Unit
  | [] => ([], .ok ())
  | (c, r) :: rest =>
    match r with
    | .ok _ =>
      match runStages rest with
      | (tr, out) => (c :: tr, out)
    | .error e => ([c], .error e)

/-- The instrumented run of the pipeline: invoked stages and outcome. -/
def pluginBuildTrace {E : Type} (s : PipelineStages E) (coverage : Bool) :
    List StageCall × Except E Unit :=
  runStages (stageCalls s coverage)

/-- Sequencing a list of outcomes fail-fast. -/
def seqStages {E : Type} : List (Except E Unit) → Except E Unit
  | [] => .ok ()
  | r :: rest => r.bind (fun _ => seqStages rest)

/-- The outcome of the instrumented run is the fail-fast sequencing of the
stage outcomes. -/
theorem runStages_snd {E : Type} (l : List (StageCall × Except E Unit)) :
    (runStages l).2 = seqStages (l.map Prod.snd) := by
  induction l with
  | nil => rfl
  | cons a rest ih =>
    obtain ⟨c, r⟩ := a
    cases r with
    | error e => simp [runStages, seqStages, Except.bind]
    | ok u =>
      cases u
      simp [runStages, seqStages, Except.bind, ih]

/-- Binding a unit outcome with the pure continuation is the outcome. -/
theorem bind_ok_unit {E : Type} (x : Except E Unit) :
    x.bind (fun _ => Except.ok ()) = x := by
  cases x with
  | error e => rfl
  | ok u => cases u; rfl

/-- When every stage resolves, all stages are invoked in order and the run
resolves. -/
theorem runStages_all_ok {E : Type} (l : List (StageCall × Except E Unit))
    (h : ∀ r ∈ l.map Prod.snd, r = Except.ok ()) :
    runStages l = (l.map Prod.fst, Except.ok ()) := by
  induction l with
  | nil => rfl
  | cons a rest ih =>
    obtain ⟨c, r⟩ := a
    have hr : r = Except.ok () := h r (List.mem_cons_self r (rest.map Prod.snd))
    subst hr
    have := ih (fun r2 hr2 => h r2 (List.mem_cons_of_mem _ hr2))
    simp [runStages, this]

/-- When the k-th stage is the first to fail, exactly the stages up to and
including k are invoked and the run fails with that stage's error. -/
theorem runStages_first_error {E : Type} (l : List (StageCall × Except E Unit))
    (k : Nat) (e : E)
    (hk : (l.map Prod.snd)[k]? = some (Except.error e))
    (hbefore : ∀ j, j < k → (l.map Prod.snd)[j]? = some (Except.ok ())) :
    runStages l = ((l.map Prod.fst).take (k + 1), Except.error e) := by
  induction l generalizing k with
  | nil => simp at hk
  | cons a rest ih =>
    obtain ⟨c, r⟩ := a
    cases k with
    | zero =>
      simp at hk
      subst hk
      simp [runStages]
    | succ k =>
      have h0 : r = Except.ok () := by
        have := hbefore 0 (Nat.succ_pos k)
        simpa using this
      subst h0
      have hk2 : (rest.map Prod.snd)[k]? = some (Except.error e) := by
        simpa using hk
      have hb2 : ∀ j, j < k → (rest.map Prod.snd)[j]? = some (Except.ok ()) := by
        intro j hj
        have := hbefore (j + 1) (Nat.succ_lt_succ hj)
        simpa using this
      simp [runStages, ih k hk2 hb2]

/-- Claim C1: for every coverage flag and every assignment of stage
outcomes: the runner's result is the fail-fast sequencing of the six
stages; when every stage succeeds, exactly the six stages
clean, prepare, prettier-check(fix=false), lint(fix=false),
test(updateSnapshot=false, coverage, watch=false),
bundle(watch=false, production=true) are invoked, in that order; and when
the k-th stage is the first to fail, the stages after it are never
invoked and the pipeline's result is that stage's error, unmodified. -/
theorem pluginBuildRunner_fail_fast (E : Type) (s : PipelineStages E)
    (coverage : Bool) :
    (pluginBuildTrace s coverage).2 = pluginBuildRunner s coverage ∧
    ((∀ r ∈ (stageCalls s coverage).map Prod.snd, r = Except.ok ()) →
      pluginBuildTrace s coverage =
        ([StageCall.clean, StageCall.prepare, StageCall.prettierCheck false,
          StageCall.lint false, StageCall.test ⟨false, coverage, false⟩,
          StageCall.bundle ⟨false, true⟩], Except.ok ())) ∧
    (∀ k e, ((stageCalls s coverage).map Prod.snd)[k]? = some (Except.error e) →
      (∀ j, j < k → ((stageCalls s coverage).map Prod.snd)[j]? =
        some (Except.ok ())) →
      pluginBuildTrace s coverage =
        (((stageCalls s coverage).map Prod.fst).take (k + 1), Except.error e)) := by
  refine ⟨?_, ?_, ?_⟩
  · rw [pluginBuildTrace, runStages_snd]
    show seqStages [s.clean, s.prepare, s.prettierCheck false, s.lint false,
      s.test ⟨false, coverage, false⟩, s.bundle ⟨false, true⟩] =
        pluginBuildRunner s coverage
    simp only [seqStages, pluginBuildRunner]
    rw [bind_ok_unit]
  · intro h
    rw [pluginBuildTrace, runStages_all_ok _ h]
    rfl
  · intro k e hk hbefore
    exact runStages_first_error _ k e hk hbefore

/-- Concrete stages whose lint stage fails. -/
def demoStages : PipelineStages String :=
  ⟨Except.ok (), Except.ok (), fun _ => Except.ok (),
   fun _ => Except.error "2 linting errors found in 1 files",
   fun _ => Except.ok (), fun _ => Except.ok ()⟩

/-- Witness for C1: with the lint stage failing, exactly the first four
stages run, test and bundle are never invoked, and the pipeline result is
the lint error unchanged. -/
theorem pluginBuildRunner_fail_fast_witness :
    pluginBuildTrace demoStages true =
      ([StageCall.clean, StageCall.prepare, StageCall.prettierCheck false,
        StageCall.lint false],
       Except.error "2 linting errors found in 1 files") := by
  have h := (pluginBuildRunner_fail_fast String demoStages true).2.2 3
    "2 linting errors found in 1 files" (by rfl)
    (by intro j hj; interval_cases j <;> rfl)
  rw [h]
  rfl
